import Mathlib

/-!
Verification of wireless_scanner_gui (src/main.rs)

Shallow embedding of the scan-and-parse pipeline and the Presenter state
machine of the repository's single source file `src/main.rs`.

Rust strings are modelled as `List Char` (`Str`), the platform branches of
`list_wifi_networks` as pure functions from the captured subprocess output,
and the `iced` `update` loop as a function from application state and
message to state plus an emitted command.
-/

namespace WirelessScanner

/-- Rust `&str` / `String`, modelled as a list of characters. -/
abbrev Str := List Char

/-- Coerce a Lean string literal into the model type. -/
def str (s : String) : Str := s.data

/-! Section: Rust string primitives used by `main.rs` -/

/-- Rust `str::split(c)`: all fields between occurrences of `c`,
empty fields included; always at least one field. -/
def splitOnChar (c : Char) : Str → List Str
  | [] => [[]]
  | a :: rest =>
    if a = c then [] :: splitOnChar c rest
    else
      match splitOnChar c rest with
      | [] => [[a]]
      | p :: ps => (a :: p) :: ps

/-- Rust `str::rsplit_once(c)`: split at the LAST occurrence of `c`,
`none` when `c` does not occur. -/
def rsplitOnce (c : Char) : Str → Option (Str × Str)
  | [] => none
  | a :: rest =>
    match rsplitOnce c rest with
    | some (l, r) => some (a :: l, r)
    | none => if a = c then some ([], rest) else none

/-- Rust `str::splitn(2, c)` drained by two `next()` calls: the part before
the first occurrence of `c`, and (when `c` occurs) the whole remainder. -/
def splitnTwo (c : Char) : Str → Str × Option Str
  | [] => ([], none)
  | a :: rest =>
    if a = c then ([], some rest)
    else
      let (p, q) := splitnTwo c rest
      (a :: p, q)

/-- Rust `str::trim`: strip leading and trailing whitespace. -/
def rustTrim (s : Str) : Str :=
  ((s.dropWhile Char.isWhitespace).reverse.dropWhile Char.isWhitespace).reverse

/-- Whether `pat` occurs at the very start of `s`. -/
def startsWith : Str → Str → Bool
  | [], _ => true
  | _ :: _, [] => false
  | a :: as, b :: bs => a = b && startsWith as bs

/-- Rust `str::contains(pat)`: substring test — `pat` occurs somewhere
in `s`. -/
def containsSub (pat : Str) : Str → Bool
  | [] => startsWith pat []
  | b :: bs => startsWith pat (b :: bs) || containsSub pat bs

/-- Rust `str::lines()`: split on `'\n'`, drop a final empty piece produced
by a trailing newline, and strip one trailing `'\r'` from each line. -/
def splitLines (s : Str) : List Str :=
  if s = [] then []
  else
    let parts := splitOnChar '\n' s
    let parts := if parts.getLast? = some [] then parts.dropLast else parts
    parts.map fun l => if l.getLast? = some '\r' then l.dropLast else l

/-- ASCII decimal digit test, as in Rust integer parsing. -/
def isAsciiDigit (c : Char) : Bool := '0' ≤ c && c ≤ '9'

/-- Value of a digit string. -/
def digitsToNat (ds : Str) : Nat :=
  ds.foldl (fun acc c => acc * 10 + (c.toNat - '0'.toNat)) 0

/-- Rust `str::parse::<i32>()`: an optional single sign, then one or more
ASCII digits, rejected on empty digits or `i32` overflow. -/
def parseI32 (s : Str) : Option Int :=
  let (sign, digits) :=
    match s with
    | '+' :: rest => ((1 : Int), rest)
    | '-' :: rest => ((-1 : Int), rest)
    | _ => ((1 : Int), s)
  if digits = [] then none
  else if digits.all isAsciiDigit then
    let v : Int := sign * (digitsToNat digits : Int)
    if -(2 ^ 31) ≤ v ∧ v ≤ 2 ^ 31 - 1 then some v else none
  else none

/-! Section: The normalized record and the HashMap model

A scan record is `(name, hardware_address, signal_percent)`, Rust type
`(String, String, i32)`.  The platform branches collect records into a
`HashMap<String, (String, i32)>` keyed by name; we model it as an
association list where `insert` replaces the value at an existing key. -/

abbrev NetRec := Str × Str × Int

abbrev HMap := List (Str × (Str × Int))

/-- Rust `HashMap::insert`: replace the value at `k` when present,
otherwise add the binding. -/
def hmInsert (k : Str) (v : Str × Int) (m : HMap) : HMap :=
  if (m.find? fun p => p.1 = k).isSome then
    m.map fun p => if p.1 = k then (k, v) else p
  else m ++ [(k, v)]

/-! Section: Linux branch (`nmcli`, colon-delimited lines)

`main.rs` lines 25–41: for each line, `rsplit_once(":")` takes the signal
as the last colon-delimited field, the remainder is `splitn(2, ":")` into
name and hardware address, both required non-empty after trimming.
(The source inserts into `hash_map` without declaring it in this branch —
a compile error under `cfg(target_os = "linux")`; we model the evident
local map used by the other two branches.) -/

/-- Fold a per-line record extractor over the lines, inserting each
produced record into the branch-local `hash_map` keyed by name — the
common shape of all three platform loops. -/
def collectInto (recOf : Str → Option NetRec) (ls : List Str) : HMap :=
  ls.foldl
    (fun hm l =>
      match recOf l with
      | some (name, mac, s) => hmInsert name (mac, s) hm
      | none => hm)
    []

/-- One iteration of the Linux parse loop: the record a line yields,
`none` when the line is dropped. -/
def parseLinuxLine (l : Str) : Option NetRec :=
  match rsplitOnce ':' l with
  | none => none
  | some (macAndSsid, signalStrength) =>
    match parseI32 signalStrength with
    | none => none
    | some strength =>
      match splitnTwo ':' macAndSsid with
      | (_, none) => none
      | (name, some macAddress) =>
        if rustTrim name ≠ [] ∧ rustTrim macAddress ≠ [] then
          some (name, macAddress, strength)
        else none

/-- The Linux branch's whole-output collection into its map. -/
def linuxCollect (text : Str) : HMap :=
  collectInto parseLinuxLine (splitLines text)

/-! Section: Windows branch (`netsh wlan show network mode=bssid`, block-oriented)

`main.rs` lines 57–82: every line containing `"SSID"` is treated as
carrying a network name (second `:`-field, trimmed); its hardware address
is then taken from the FIRST line in the whole output containing
`"BSSID"`, and its signal from the FIRST line in the whole output
containing `"Signal"` — the lookup is global, not scoped to the block. -/

def ssidMarker : Str := str "SSID"

def bssidMarker : Str := str "BSSID"

def signalMarker : Str := str "Signal"

/-- Rust `line.split(":").nth(1)`: the second colon-delimited field. -/
def secondField (l : Str) : Option Str := (splitOnChar ':' l)[1]?

/-- One iteration of the Windows parse loop on `line`, with `ls` the full
line list of the captured output (`wifi_list.lines()`). -/
def windowsLineRecord (ls : List Str) (line : Str) : Option NetRec :=
  if containsSub ssidMarker line then
    match secondField line with
    | none => none
    | some ssidField =>
      let ssid := rustTrim ssidField
      match ls.find? (fun l => containsSub bssidMarker l) with
      | none => none
      | some bssidLine =>
        match secondField bssidLine with
        | none => none
        | some bssidField =>
          let bssid := rustTrim bssidField
          match ls.find? (fun l => containsSub signalMarker l) with
          | none => none
          | some signalLine =>
            match secondField signalLine with
            | none => none
            | some signalField =>
              match parseI32 (rustTrim signalField) with
              | none => none
              | some strength => some (ssid, bssid, strength)
  else none

/-- The Windows branch's whole-output collection into its `hash_map`. -/
def windowsCollect (text : Str) : HMap :=
  let ls := splitLines text
  collectInto (windowsLineRecord ls) ls

/-! Section: macOS branch (`airport -s`, whitespace-delimited columns)

`main.rs` lines 92–105: each line is split on whitespace; with at least
three tokens, they are taken positionally as name, hardware address and
signal (the third must parse as `i32`). -/

/-- Rust `str::split_whitespace()`: maximal non-whitespace runs. -/
def splitWhitespace (l : Str) : List Str :=
  (List.splitOnP (fun c => c.isWhitespace) l).filter (fun p => p ≠ [])

/-- One iteration of the macOS parse loop. -/
def macosLineRecord (l : Str) : Option NetRec :=
  match splitWhitespace l with
  | t0 :: t1 :: t2 :: _ =>
    match parseI32 t2 with
    | some strength => some (t0, t1, strength)
    | none => none
  | _ => none

/-- The macOS branch's whole-output collection into its `hash_map`. -/
def macosCollect (text : Str) : HMap :=
  collectInto macosLineRecord (splitLines text)

/-! Section: `list_wifi_networks` itself

The function allocates `networks = Vec::new()`, runs the (compile-target
selected) platform branch — which only fills a branch-local map and prints
— and returns `networks`.  We model the captured subprocess output and the
compile-target platform as inputs. -/

inductive Platform
  | linux
  | windows
  | macos
deriving DecidableEq

/-- Rust `std::process::Output` as the branches consume it. -/
structure CmdOutput where
  success : Bool
  stdout : Str

/-- The function `fn list_wifi_networks() -> Vec<(String, String, i32)>`, given the
platform the binary was compiled for and the subprocess output captured
by that platform's branch. -/
def list_wifi_networks (p : Platform) (output : CmdOutput) : List NetRec :=
  let networks : List NetRec := []
  match p with
  | .linux =>
    if output.success then
      let _hash_map := linuxCollect output.stdout
      networks
    else networks
  | .windows =>
    if output.success then
      let _hash_map := windowsCollect output.stdout
      networks
    else networks
  | .macos =>
    if output.success then
      let _hash_map := macosCollect output.stdout
      networks
    else networks

/-! Section: `signal_color` -/

/-- The `iced::Color` type, kept at `from_rgb8` precision. -/
structure Color where
  r : Nat
  g : Nat
  b : Nat
deriving DecidableEq

def Color.from_rgb8 (r g b : Nat) : Color := ⟨r, g, b⟩

def Color.BLACK : Color := ⟨0, 0, 0⟩

/-- The function `fn signal_color(strength: i32) -> Color`: the four-bucket match. -/
def signal_color (strength : Int) : Color :=
  if 0 ≤ strength ∧ strength ≤ 20 then Color.from_rgb8 139 0 0
  else if 21 ≤ strength ∧ strength ≤ 50 then Color.from_rgb8 255 165 0
  else if 51 ≤ strength ∧ strength ≤ 80 then Color.from_rgb8 255 255 0
  else if 81 ≤ strength ∧ strength ≤ 100 then Color.from_rgb8 0 255 0
  else Color.BLACK

/-! Section: Presenter state machine (`WirelessScanner` + `update`)

`main.rs` lines 137–183.  `Command::perform(async { list_wifi_networks() },
Message::ScanResult)` is modelled as an emitted `Cmd.performScan`; the
`iced` runtime delivering the task's result is a `ScanResult` message. -/

inductive Message
  | scan
  | scanResult (results : List NetRec)

/-- The `WirelessScanner` application state. -/
structure AppState where
  networks : List NetRec
  scanning : Bool
deriving DecidableEq

/-- The `Default::default()` state for `WirelessScanner`. -/
def AppState.default : AppState := { networks := [], scanning := false }

/-- The command returned by `update`: either `Command::none()` or the
`Command::perform` that spawns one scan task. -/
inductive Cmd
  | none
  | performScan
deriving DecidableEq

/-- The method `fn update(&mut self, message: Message) -> Command<Message>`. -/
def update (s : AppState) (m : Message) : AppState × Cmd :=
  match m with
  | .scan =>
    if s.scanning then (s, Cmd.none)
    else ({ networks := [], scanning := true }, Cmd.performScan)
  | .scanResult results => ({ s with networks := results }, Cmd.none)

/-- Number of scan tasks a command spawns. -/
def Cmd.spawns : Cmd → Nat
  | .none => 0
  | .performScan => 1

/-- The application state paired with the number of scan tasks currently
outstanding in the `iced` executor. -/
structure SysState where
  app : AppState
  outstanding : Nat
deriving DecidableEq

/-- One event of the runtime: either the user presses Scan, or one of the
outstanding scan tasks completes and its `ScanResult` is delivered. -/
inductive SysStep : SysState → SysState → Prop
  | scan (σ : SysState) :
      SysStep σ ⟨(update σ.app .scan).1,
                 σ.outstanding + ((update σ.app .scan).2).spawns⟩
  | complete (σ : SysState) (results : List NetRec)
      (h : 1 ≤ σ.outstanding) :
      SysStep σ ⟨(update σ.app (.scanResult results)).1,
                 (σ.outstanding - 1) +
                   ((update σ.app (.scanResult results)).2).spawns⟩

/-- States reachable from the freshly constructed application. -/
inductive Reachable : SysState → Prop
  | init : Reachable ⟨AppState.default, 0⟩
  | step {σ σ' : SysState} : Reachable σ → SysStep σ σ' → Reachable σ'

/-- Inductive invariant of the runtime: never more than one scan task
outstanding, and none at all unless the scanning flag is set. -/
def SysInv (σ : SysState) : Prop :=
  σ.outstanding ≤ 1 ∧ (σ.app.scanning = false → σ.outstanding = 0)

/-! Section: concrete inputs used in the proofs -/

/-- Two well-formed colon-delimited lines sharing the name `Net` but with
different hardware addresses. -/
def exDupInput : Str :=
  str "Net:aa:bb:cc:dd:ee:ff:10\nNet:11:22:33:44:55:66:20"

/-- A block-oriented output with two network blocks, each with its own
BSSID and Signal lines. -/
def exWinInput : Str :=
  str "SSID 1 : Alpha\n    BSSID 1 : aa:bb:cc\n    Signal : 72\nSSID 2 : Beta\n    BSSID 1 : dd:ee:ff\n    Signal : 31"

/-! Section: helper lemmas -/

theorem startsWith_contains (pat s : Str) (h : startsWith pat s = true) :
    containsSub pat s = true := by
  cases s with
  | nil => simpa [containsSub] using h
  | cons b bs => simp [containsSub, h]

theorem containsSub_tail (a : Char) (pat s : Str)
    (h : containsSub (a :: pat) s = true) : containsSub pat s = true := by
  induction s with
  | nil => simp [containsSub, startsWith] at h
  | cons b bs ih =>
    simp only [containsSub, Bool.or_eq_true] at h ⊢
    rcases h with h | h
    · simp only [startsWith, Bool.and_eq_true] at h
      exact Or.inr (startsWith_contains pat bs h.2)
    · exact Or.inr (ih h)

theorem sysStep_inv {σ σ' : SysState} (h : SysInv σ) (hs : SysStep σ σ') :
    SysInv σ' := by
  obtain ⟨h1, h2⟩ := h
  cases hs with
  | scan =>
    by_cases hb : σ.app.scanning = true
    · refine ⟨by simpa [update, hb, Cmd.spawns] using h1, fun hfalse => ?_⟩
      simp [update, hb] at hfalse
    · have h0 : σ.outstanding = 0 := h2 (by simpa using hb)
      refine ⟨by simp [update, hb, Cmd.spawns, h0], fun hfalse => ?_⟩
      simp [update, hb] at hfalse
  | complete results hout =>
    refine ⟨?_, fun hfalse => ?_⟩
    · simp [update, Cmd.spawns]
      omega
    · have h0 : σ.outstanding = 0 := h2 (by simpa [update] using hfalse)
      simp [update, Cmd.spawns]
      omega

theorem reachable_inv {σ : SysState} (h : Reachable σ) : SysInv σ := by
  induction h with
  | init => exact ⟨by simp, fun _ => rfl⟩
  | step _ hs ih => exact sysStep_inv ih hs

theorem hmInsert_keys_nodup (k : Str) (v : Str × Int) (m : HMap)
    (h : (m.map Prod.fst).Nodup) : ((hmInsert k v m).map Prod.fst).Nodup := by
  unfold hmInsert
  split
  · have hkeys :
        ((m.map fun p => if p.1 = k then (k, v) else p).map Prod.fst) =
          m.map Prod.fst := by
      simp only [List.map_map]
      apply List.map_congr_left
      intro p _
      by_cases hp : p.1 = k
      · simp [hp, Function.comp]
      · simp [hp, Function.comp]
    rw [hkeys]
    exact h
  · rename_i hfind
    have hk : k ∉ m.map Prod.fst := by
      intro hmem
      obtain ⟨p, hpmem, hpk⟩ := List.mem_map.mp hmem
      have hnone : m.find? (fun p => p.1 = k) = none :=
        Option.not_isSome_iff_eq_none.mp hfind
      have := List.find?_eq_none.mp hnone p hpmem
      simp [hpk] at this
    simp [List.nodup_append, h, hk]

theorem collect_keys_nodup (recOf : Str → Option NetRec) :
    ∀ (ls : List Str) (acc : HMap), (acc.map Prod.fst).Nodup →
      (((ls.foldl
          (fun hm l =>
            match recOf l with
            | some (name, mac, s) => hmInsert name (mac, s) hm
            | none => hm)
          acc)).map Prod.fst).Nodup := by
  intro ls
  induction ls with
  | nil => intro acc h; simpa using h
  | cons l rest ih =>
    intro acc h
    simp only [List.foldl_cons]
    apply ih
    cases hr : recOf l with
    | none => simpa using h
    | some r =>
      obtain ⟨n, mc, sg⟩ := r
      exact hmInsert_keys_nodup n (mc, sg) acc h

theorem collectInto_keys_nodup (recOf : Str → Option NetRec) (ls : List Str) :
    ((collectInto recOf ls).map Prod.fst).Nodup :=
  collect_keys_nodup recOf ls [] (by simp)

/-! Section: claim theorems -/

/-- C1: for every platform path and every subprocess output, the scan
function returns the empty list — the `networks` vector is created empty
and never appended to; each branch fills only a discarded local map. -/
theorem list_wifi_networks_always_empty (p : Platform) (output : CmdOutput) :
    list_wifi_networks p output = [] := by
  cases p <;> by_cases h : output.success <;> simp [list_wifi_networks, h]

/-- C2: evaluating `update` in the Scanning state at a delivered
`ScanResult`: the record list is replaced in its entirety, but the
scanning flag stays `true` — the state does NOT return to Idle, contrary
to the claimed (and spec-intended) transition. -/
theorem update_scanResult_keeps_scanning :
    update ⟨[], true⟩
        (Message.scanResult [(str "HomeNet", str "aa:bb:cc:dd:ee:ff", 72)]) =
      (⟨[(str "HomeNet", str "aa:bb:cc:dd:ee:ff", 72)], true⟩, Cmd.none) := by
  rfl

/-- C3: every well-formed colon-delimited line — last field an integer,
name and hardware address non-empty after trimming — yields exactly the
record made of those three values. -/
theorem parseLinuxLine_wellformed (l macAndSsid sig name mac : Str) (n : Int)
    (h1 : rsplitOnce ':' l = some (macAndSsid, sig))
    (h2 : parseI32 sig = some n)
    (h3 : splitnTwo ':' macAndSsid = (name, some mac))
    (h4 : rustTrim name ≠ [])
    (h5 : rustTrim mac ≠ []) :
    parseLinuxLine l = some (name, mac, n) := by
  simp [parseLinuxLine, h1, h2, h3, h4, h5]

/-- C3 witness: the line `HomeNet:aa:bb:cc:dd:ee:ff:72`. -/
theorem parseLinuxLine_wellformed_witness :
    parseLinuxLine (str "HomeNet:aa:bb:cc:dd:ee:ff:72") =
      some (str "HomeNet", str "aa:bb:cc:dd:ee:ff", 72) :=
  parseLinuxLine_wellformed (str "HomeNet:aa:bb:cc:dd:ee:ff:72")
    (str "HomeNet:aa:bb:cc:dd:ee:ff") (str "72") (str "HomeNet")
    (str "aa:bb:cc:dd:ee:ff") 72 (by decide) (by decide) (by decide)
    (by decide) (by decide)

/-- C4: a Scan message while scanning is a no-op with no command, and on
every reachable run at most one scan task is outstanding. -/
theorem scan_gate_no_second_task :
    (∀ s : AppState, s.scanning = true →
        update s Message.scan = (s, Cmd.none)) ∧
    (∀ σ : SysState, Reachable σ → σ.outstanding ≤ 1) := by
  constructor
  · intro s h
    simp [update, h]
  · intro σ h
    exact (reachable_inv h).1

/-- C4 witness: the gate at a concrete Scanning state, and the bound at
the initial system state. -/
theorem scan_gate_no_second_task_witness :
    update ⟨[], true⟩ Message.scan = (⟨[], true⟩, Cmd.none) ∧
    (⟨AppState.default, 0⟩ : SysState).outstanding ≤ 1 :=
  ⟨scan_gate_no_second_task.1 ⟨[], true⟩ rfl,
   scan_gate_no_second_task.2 ⟨AppState.default, 0⟩ Reachable.init⟩

/-- C5: `signal_color` buckets every integer strength: [0,20] dark red,
[21,50] orange, [51,80] yellow, [81,100] green, anything else black. -/
theorem signal_color_buckets (s : Int) :
    (0 ≤ s ∧ s ≤ 20 → signal_color s = Color.from_rgb8 139 0 0) ∧
    (21 ≤ s ∧ s ≤ 50 → signal_color s = Color.from_rgb8 255 165 0) ∧
    (51 ≤ s ∧ s ≤ 80 → signal_color s = Color.from_rgb8 255 255 0) ∧
    (81 ≤ s ∧ s ≤ 100 → signal_color s = Color.from_rgb8 0 255 0) ∧
    ((s < 0 ∨ 100 < s) → signal_color s = Color.BLACK) := by
  unfold signal_color
  split_ifs with h1 h2 h3 h4 <;>
    refine ⟨fun h => ?_, fun h => ?_, fun h => ?_, fun h => ?_, fun h => ?_⟩ <;>
    first
      | rfl
      | (exfalso; omega)

/-- C5 witness: the inclusive boundaries and the out-of-range fallback. -/
theorem signal_color_buckets_witness :
    signal_color 20 = Color.from_rgb8 139 0 0 ∧
    signal_color 21 = Color.from_rgb8 255 165 0 ∧
    signal_color 80 = Color.from_rgb8 255 255 0 ∧
    signal_color 81 = Color.from_rgb8 0 255 0 ∧
    signal_color (-7) = Color.BLACK ∧
    signal_color 101 = Color.BLACK :=
  ⟨(signal_color_buckets 20).1 (by decide),
   (signal_color_buckets 21).2.1 (by decide),
   (signal_color_buckets 80).2.2.1 (by decide),
   (signal_color_buckets 81).2.2.2.1 (by decide),
   (signal_color_buckets (-7)).2.2.2.2 (Or.inl (by decide)),
   (signal_color_buckets 101).2.2.2.2 (Or.inr (by decide))⟩

/-- C6: a colon-delimited line whose trailing field does not parse, or
whose name or hardware-address part is empty after trimming, is silently
dropped — no record, no error. -/
theorem parseLinuxLine_malformed (l macAndSsid sig : Str)
    (h1 : rsplitOnce ':' l = some (macAndSsid, sig))
    (h2 : parseI32 sig = none ∨
          rustTrim (splitnTwo ':' macAndSsid).1 = [] ∨
          ∀ mac, (splitnTwo ':' macAndSsid).2 = some mac → rustTrim mac = []) :
    parseLinuxLine l = none := by
  cases hps : parseI32 sig with
  | none => simp [parseLinuxLine, h1, hps]
  | some n =>
    rcases hsp : splitnTwo ':' macAndSsid with ⟨nm, mo⟩
    cases mo with
    | none => simp [parseLinuxLine, h1, hps, hsp]
    | some mac =>
      rcases h2 with h2 | h2 | h2
      · rw [hps] at h2
        simp at h2
      · rw [hsp] at h2
        simp at h2
        simp [parseLinuxLine, h1, hps, hsp, h2]
      · have hm := h2 mac (by rw [hsp])
        simp [parseLinuxLine, h1, hps, hsp, hm]

/-- C6 witness: the line `::55` (empty name and address) yields nothing. -/
theorem parseLinuxLine_malformed_witness :
    parseLinuxLine (str "::55") = none :=
  parseLinuxLine_malformed (str "::55") (str ":") (str "55") (by decide)
    (Or.inr (Or.inl (by decide)))

/-- C7 counterexample: two well-formed lines with the same name `Net` but
different hardware addresses are both parsed, yet the branch-local map
keeps a single record and the function's output holds zero records — not
the two distinct records the claim requires. -/
theorem linux_duplicate_names_not_two_records :
    parseLinuxLine (str "Net:aa:bb:cc:dd:ee:ff:10") =
      some (str "Net", str "aa:bb:cc:dd:ee:ff", 10) ∧
    parseLinuxLine (str "Net:11:22:33:44:55:66:20") =
      some (str "Net", str "11:22:33:44:55:66", 20) ∧
    (linuxCollect exDupInput).length = 1 ∧
    list_wifi_networks Platform.linux ⟨true, exDupInput⟩ = [] := by
  decide

/-- C7 amended: parsing DOES deduplicate by name — the collection map
never holds two entries with the same name (the later record replaces the
earlier) — and the returned normalized output holds zero records. -/
theorem linux_duplicate_names_dedup :
    (∀ text : Str, ((linuxCollect text).map Prod.fst).Nodup) ∧
    linuxCollect exDupInput =
      [(str "Net", (str "11:22:33:44:55:66", 20))] ∧
    list_wifi_networks Platform.linux ⟨true, exDupInput⟩ = [] := by
  refine ⟨fun text => ?_, by decide, by decide⟩
  exact collectInto_keys_nodup parseLinuxLine (splitLines text)

/-- C8: whenever the block-oriented parser produces a record from an SSID
line, its hardware address and signal come from the FIRST line in the
whole output containing `BSSID`, respectively the FIRST line containing
`Signal` — a global lookup, never scoped to the SSID's own block. -/
theorem windows_global_lookup (ls : List Str) (line name bssid : Str)
    (strength : Int)
    (h : windowsLineRecord ls line = some (name, bssid, strength)) :
    ∃ bssidLine signalLine bssidField signalField,
      ls.find? (fun l => containsSub bssidMarker l) = some bssidLine ∧
      ls.find? (fun l => containsSub signalMarker l) = some signalLine ∧
      secondField bssidLine = some bssidField ∧
      bssid = rustTrim bssidField ∧
      secondField signalLine = some signalField ∧
      parseI32 (rustTrim signalField) = some strength := by
  by_cases hs : containsSub ssidMarker line = true
  · cases hf : secondField line with
    | none => simp [windowsLineRecord, hs, hf] at h
    | some ssidField =>
      cases hb : ls.find? (fun l => containsSub bssidMarker l) with
      | none => simp [windowsLineRecord, hs, hf, hb] at h
      | some bssidLine =>
        cases hbf : secondField bssidLine with
        | none => simp [windowsLineRecord, hs, hf, hb, hbf] at h
        | some bssidField =>
          cases hsl : ls.find? (fun l => containsSub signalMarker l) with
          | none => simp [windowsLineRecord, hs, hf, hb, hbf, hsl] at h
          | some signalLine =>
            cases hsf : secondField signalLine with
            | none => simp [windowsLineRecord, hs, hf, hb, hbf, hsl, hsf] at h
            | some signalField =>
              cases hps : parseI32 (rustTrim signalField) with
              | none =>
                simp [windowsLineRecord, hs, hf, hb, hbf, hsl, hsf, hps] at h
              | some n =>
                have hcore :
                    rustTrim ssidField = name ∧
                    rustTrim bssidField = bssid ∧ n = strength := by
                  simpa [windowsLineRecord, hs, hf, hb, hbf, hsl, hsf, hps]
                    using h
                obtain ⟨hn, hbs, hst⟩ := hcore
                exact ⟨bssidLine, signalLine, bssidField, signalField,
                  rfl, rfl, hbf, hbs.symm, hsf, by rw [hps, hst]⟩
  · simp [windowsLineRecord, hs] at h

/-- C8 witness: the record for the second block's SSID line `Beta` takes
the first block's hardware address (`aa`) and signal (72). -/
theorem windows_global_lookup_witness :
    ∃ bssidLine signalLine bssidField signalField,
      (splitLines exWinInput).find?
          (fun l => containsSub bssidMarker l) = some bssidLine ∧
      (splitLines exWinInput).find?
          (fun l => containsSub signalMarker l) = some signalLine ∧
      secondField bssidLine = some bssidField ∧
      str "aa" = rustTrim bssidField ∧
      secondField signalLine = some signalField ∧
      parseI32 (rustTrim signalField) = some 72 :=
  windows_global_lookup (splitLines exWinInput) (str "SSID 2 : Beta")
    (str "Beta") (str "aa") 72 (by decide)

/-- C9: a whitespace-delimited line with at least three tokens and an
integer third token yields the record made of the first three tokens
positionally. -/
theorem macosLineRecord_positional (l t0 t1 t2 : Str) (rest : List Str)
    (n : Int)
    (h1 : splitWhitespace l = t0 :: t1 :: t2 :: rest)
    (h2 : parseI32 t2 = some n) :
    macosLineRecord l = some (t0, t1, n) := by
  simp [macosLineRecord, h1, h2]

/-- C9 witness: the line `CafeWifi 11:22:33:44:55:66 15` yields signal 15. -/
theorem macosLineRecord_positional_witness :
    macosLineRecord (str "CafeWifi 11:22:33:44:55:66 15") =
      some (str "CafeWifi", str "11:22:33:44:55:66", 15) :=
  macosLineRecord_positional (str "CafeWifi 11:22:33:44:55:66 15")
    (str "CafeWifi") (str "11:22:33:44:55:66") (str "15") [] 15
    (by decide) (by decide)

/-- C10: the SSID-marker test is a substring check, so every line
containing `BSSID` passes it; such a line is processed as an SSID line
and contributes a record whose name is read from the BSSID line itself. -/
theorem every_bssid_line_is_ssid_line :
    (∀ l : Str, containsSub bssidMarker l = true →
        containsSub ssidMarker l = true) ∧
    windowsLineRecord (splitLines exWinInput) (str "    BSSID 1 : aa:bb:cc") =
      some (str "aa", str "aa", 72) := by
  constructor
  · intro l h
    have hb : bssidMarker = 'B' :: ssidMarker := by decide
    rw [hb] at h
    exact containsSub_tail 'B' ssidMarker l h
  · decide

/-- C10 witness: a concrete BSSID line passes the SSID-marker test. -/
theorem every_bssid_line_is_ssid_line_witness :
    containsSub ssidMarker (str "    BSSID 1 : aa:bb:cc") = true :=
  every_bssid_line_is_ssid_line.1 (str "    BSSID 1 : aa:bb:cc") (by decide)

end WirelessScanner
